import Mathlib

/-!
Verification of the batched Google-Sheet upload controller of
`src/heisenberg_utils/gsheet_utils.py` (`upload_to_gsheet`, lines 55-173)
together with the `safe_execution` decorator of `src/utils/decorators.py`.

The remote worksheet handle (a `pygsheets` worksheet) is modelled as a
`SheetState`: its current extents (`rows`, `cols`, the `wk.rows` / `wk.cols`
attributes) and its cell content (`grid`, a list of rows; every remote write
in the source starts at column A, so row-level granularity is exact).
Every remote call issued through the handle is recorded as an event
(`Ev`), so a run of the controller yields its returned boolean, the final
worksheet state and the trace of remote calls, in order.

Cell values are an arbitrary type `α`: the controller never inspects them.
-/

namespace Heisenberg

/-- A pandas DataFrame as the controller sees it: the column names
(`upload_df.columns`) and the data rows (`upload_df` row-wise,
`total_rows = len(upload_df)`, `data_cols = len(upload_df.columns)`). -/
structure DF (α : Type) where
  header : List α
  rows : List (List α)
deriving DecidableEq

/-- The remote worksheet handle: current extents (`wk.rows`, `wk.cols`)
and cell content as a list of rows (row `i` of the sheet, 0-indexed, is
`grid[i]`; missing entries are empty cells). -/
@[ext]
structure SheetState (α : Type) where
  rows : Nat
  cols : Nat
  grid : List (List α)
deriving DecidableEq

/-- One remote call issued through the handle:
`connect` covers `pygsheets.authorize` / `open_by_url` / worksheet
obtain-or-create (lines 88-99); `resizeSheet` is `wk.resize` (lines 113
and 165); `clearSheet` is `wk.clear()` (line 116); `setDF start values`
is `wk.set_dataframe(...)` (lines 121 and 130) with the rows it writes;
`updateValues range values` is `wk.update_values(range_name, values)`
(line 147); `sleep` is `time.sleep(0.1)` (line 150, not a remote call). -/
inductive Ev (α : Type) where
  | connect : Ev α
  | resizeSheet : Nat → Nat → Ev α
  | clearSheet : Ev α
  | setDF : String → List (List α) → Ev α
  | updateValues : String → List (List α) → Ev α
  | sleep : Ev α
deriving DecidableEq

/-- Writing `vs` into the sheet content starting at 0-indexed row `start`
(always at column A in the source): rows before `start` are kept (padded
with empty rows if the content is shorter), the written rows replace
whatever was there, rows beyond the written range are kept. -/
def overwriteRows {α : Type} (grid : List (List α)) (start : Nat)
    (vs : List (List α)) : List (List α) :=
  (grid.take start ++ List.replicate (start - grid.length) []) ++ vs
    ++ grid.drop (start + vs.length)

/-- The iteration indices of `for i in range(0, total_rows, batch_size)`
(line 133).  Python raises `ValueError` on step 0; all callers here use a
positive `batch_size`, so the step-0 case is modelled as no iterations. -/
def chunkStarts (total bs : Nat) : List Nat :=
  if bs = 0 then [] else (List.range total).filter (fun i => i % bs = 0)

/-- The per-iteration data of the chunk loop (lines 133-150): for each
start index `i`, the 1-indexed destination rows
`start_row = i + 2`, `end_row = min(start_row + len(batch_df) - 1, data_rows)`
and the slice `batch_df = upload_df.iloc[i:i+batch_size]`. -/
def chunkDescs {α : Type} (dataRows : List (List α)) (bs : Nat) :
    List (Nat × Nat × List (List α)) :=
  (chunkStarts dataRows.length bs).map (fun i =>
    let batch := (dataRows.drop i).take bs
    let startRow := i + 2
    let endRow := min (startRow + batch.length - 1) (dataRows.length + 1)
    (startRow, endRow, batch))

/-- The column letter `chr(65 + data_cols - 1)` of line 146. -/
def colChar (dataCols : Nat) : Char := Char.ofNat (65 + dataCols - 1)

/-- The range label `f'A{start_row}:{chr(65 + data_cols - 1)}{end_row}'`
of line 146. -/
def rangeLabel (startRow endRow dataCols : Nat) : String :=
  "A" ++ toString startRow ++ ":" ++ String.mk [colChar dataCols]
    ++ toString endRow

/-- Effect of `wk.resize(rows=r, cols=c)` on the handle: the extents are
set; content outside the new extents is discarded. -/
def applyResize {α : Type} (wk : SheetState α) (r c : Nat) : SheetState α :=
  { rows := r, cols := c,
    grid := (wk.grid.take r).map (fun row => row.take c) }

/-- Lines 109-113: if the data (header included) exceeds the worksheet in
either dimension, resize to the dimension-wise maximum of current and
required extents; otherwise leave the handle untouched. -/
def ensureCapacity {α : Type} (wk : SheetState α) (dataRows dataCols : Nat) :
    SheetState α × List (Ev α) :=
  if dataRows > wk.rows ∨ dataCols > wk.cols then
    let newRows := max dataRows wk.rows
    let newCols := max dataCols wk.cols
    (applyResize wk newRows newCols, [Ev.resizeSheet newRows newCols])
  else (wk, [])

/-- The chunk loop body (lines 133-150), one recursive step per iteration:
write the batch at 0-indexed row `start_row - 1`, emit the
`update_values` call followed by the `time.sleep(0.1)`. -/
def chunkLoop {α : Type} (dataCols : Nat) :
    List (Nat × Nat × List (List α)) → SheetState α →
      SheetState α × List (Ev α)
  | [], st => (st, [])
  | d :: rest, st =>
      let st2 : SheetState α :=
        { st with grid := overwriteRows st.grid (d.1 - 1) d.2.2 }
      let r := chunkLoop dataCols rest st2
      (r.1, Ev.updateValues (rangeLabel d.1 d.2.1 dataCols) d.2.2
              :: Ev.sleep :: r.2)

/-- Lines 119-152: single-shot `set_dataframe` when
`total_rows <= batch_size`, otherwise a lone header write followed by the
chunk loop. -/
def writePhase {α : Type} (df : DF α) (wk : SheetState α) (batchSize : Nat) :
    SheetState α × List (Ev α) :=
  if df.rows.length ≤ batchSize then
    ({ wk with grid := overwriteRows wk.grid 0 (df.header :: df.rows) },
      [Ev.setDF "A1" (df.header :: df.rows)])
  else
    let wkh : SheetState α :=
      { wk with grid := overwriteRows wk.grid 0 [df.header] }
    let c := chunkLoop df.header.length (chunkDescs df.rows batchSize) wkh
    (c.1, Ev.setDF "A1" [df.header] :: c.2)

/-- Lines 154-169: when `drop_unused_columns` is set and the worksheet has
more columns than `last_used_col = data_cols`, resize to
`(wk.rows, last_used_col)`; otherwise do nothing. -/
def trimPhase {α : Type} (wk : SheetState α) (dataCols : Nat)
    (dropUnused : Bool) : SheetState α × List (Ev α) :=
  if dropUnused then
    let lastUsedCol := dataCols
    if wk.cols > lastUsedCol then
      (applyResize wk wk.rows lastUsedCol,
        [Ev.resizeSheet wk.rows lastUsedCol])
    else (wk, [])
  else (wk, [])

/-- Lines 87-173 of `upload_to_gsheet`, after `upload_df` has been
resolved: connect and obtain the worksheet, ensure capacity, clear,
write (single-shot or chunked), optionally trim, return `True`. -/
def uploadCore {α : Type} (df : DF α) (wk : SheetState α) (batchSize : Nat)
    (dropUnused : Bool) : Bool × SheetState α × List (Ev α) :=
  let dataRows := df.rows.length + 1
  let dataCols := df.header.length
  let e := ensureCapacity wk dataRows dataCols
  let wk2 : SheetState α := { e.1 with grid := [] }
  let w := writePhase df wk2 batchSize
  let t := trimPhase w.1 dataCols dropUnused
  (true, t.1, Ev.connect :: (e.2 ++ (Ev.clearSheet :: (w.2 ++ t.2))))

/-- `upload_to_gsheet` (lines 55-173).  `dfArg` is the `df` keyword
argument, `localPath` the `local_path` one; `fileExists` models
`(DATA_PATH / local_path).exists()` and `readCsv` models
`pd.read_csv(full_path)`.  Returns the boolean result, the final
worksheet state and the trace of remote calls (empty when the input
validation fails: lines 74-85 run before any remote call). -/
def upload_to_gsheet {α : Type} (dfArg : Option (DF α))
    (localPath : Option String) (fileExists : String → Bool)
    (readCsv : String → DF α) (wk : SheetState α) (batchSize : Nat)
    (dropUnused : Bool) : Bool × SheetState α × List (Ev α) :=
  match dfArg, localPath with
  | some df, _ => uploadCore df wk batchSize dropUnused
  | none, some p =>
      if fileExists p then uploadCore (readCsv p) wk batchSize dropUnused
      else (false, wk, [])
  | none, none => (false, wk, [])

/-- Projection selecting the `update_values` calls of a trace. -/
def updOf {α : Type} : Ev α → Option (String × List (List α))
  | Ev.updateValues r v => some (r, v)
  | _ => none

/-- Projection selecting the `set_dataframe` calls of a trace. -/
def setDFOf {α : Type} : Ev α → Option (String × List (List α))
  | Ev.setDF s v => some (s, v)
  | _ => none

/-- Recogniser for `resize` calls. -/
def isResizeEv {α : Type} : Ev α → Bool
  | Ev.resizeSheet _ _ => true
  | _ => false

/-- Failure injection for the remote handle: run the remote calls of a
trace in order; the first call on which the handle raises (`failOn`)
aborts the run with that call as the exception. -/
def runEvents {α : Type} (failOn : Ev α → Bool) : List (Ev α) →
    Except (Ev α) Unit
  | [] => Except.ok ()
  | e :: rest =>
      if failOn e then Except.error e else runEvents failOn rest

/-- `upload_to_gsheet` under a handle that may raise: the controller body
contains no `try`/`except`, so the run produces the value of the pure run
when every remote call succeeds and re-raises the first handle exception
otherwise.  The early validation returns (lines 74-85) happen before any
remote call and cannot raise. -/
def upload_to_gsheetF {α : Type} (failOn : Ev α → Bool)
    (dfArg : Option (DF α)) (localPath : Option String)
    (fileExists : String → Bool) (readCsv : String → DF α)
    (wk : SheetState α) (batchSize : Nat) (dropUnused : Bool) :
    Except (Ev α) (Bool × SheetState α × List (Ev α)) :=
  match dfArg, localPath with
  | some df, _ =>
      let r := uploadCore df wk batchSize dropUnused
      match runEvents failOn r.2.2 with
      | Except.error e => Except.error e
      | Except.ok _ => Except.ok r
  | none, some p =>
      if fileExists p then
        let r := uploadCore (readCsv p) wk batchSize dropUnused
        match runEvents failOn r.2.2 with
        | Except.error e => Except.error e
        | Except.ok _ => Except.ok r
      else Except.ok (false, wk, [])
  | none, none => Except.ok (false, wk, [])

/-- The `safe_execution` decorator (`src/utils/decorators.py`, lines 8-23):
when `enabled`, exceptions of the wrapped function are caught, logged and
turned into `None`; when disabled the function is returned unchanged
(here: its result is injected into the `Option`, errors kept). -/
def safe_execution {σ β ε : Type} (enabled : Bool)
    (func : σ → Except ε β) : σ → Except ε (Option β) :=
  fun a =>
    if enabled then
      match func a with
      | Except.ok b => Except.ok (some b)
      | Except.error _ => Except.ok none
    else (func a).map some

/-- Spec-side (§6 of the spec, not from the source): the single-character
base-26 column letters, offsets 0-25 mapping to the letters A-Z. -/
def isBase26Letter (c : Char) : Prop := 65 ≤ c.toNat ∧ c.toNat ≤ 90

instance (c : Char) : Decidable (isBase26Letter c) := by
  unfold isBase26Letter; infer_instance

/-! ### Concrete sample inputs used to instantiate the theorems -/

/-- A 3-row, 2-column dataset. -/
def dfW : DF Bool := ⟨[true, false], [[true, true], [false, false], [true, false]]⟩

/-- A 45000-row, 2-column dataset (scenario B of the spec). -/
def df45 : DF Bool := ⟨[true, false], List.replicate 45000 [true, false]⟩

/-- A 3-row, 27-column dataset (column offset 26 is outside A-Z). -/
def df27 : DF Bool := ⟨List.replicate 27 true, List.replicate 3 (List.replicate 27 true)⟩

/-- A small initial worksheet. -/
def wkW : SheetState Bool := ⟨1, 1, []⟩

/-- A file-existence oracle answering `false`. -/
def feW : String → Bool := fun _ => false

/-- A CSV reader stub. -/
def rcW : String → DF Bool := fun _ => ⟨[true], [[false]]⟩

/-- A handle that raises on its `clear()` call. -/
def failOnClear : Ev Bool → Bool
  | Ev.clearSheet => true
  | _ => false

/-! ### Arithmetic facts about the ceiling division `(t + bs - 1) / bs` -/

theorem cld_of_mod_eq (t bs : Nat) (h : 0 < bs) (hm : t % bs = 0) :
    (t + bs - 1) / bs = t / bs := by
  obtain ⟨q, rfl⟩ : bs ∣ t := Nat.dvd_of_mod_eq_zero hm
  rw [show bs * q + bs - 1 = bs * q + (bs - 1) from by omega,
    Nat.mul_add_div h, Nat.div_eq_of_lt (show bs - 1 < bs by omega),
    Nat.add_zero, Nat.mul_div_cancel_left _ h]

theorem cld_of_mod_ne (t bs : Nat) (h : 0 < bs) (hm : t % bs ≠ 0) :
    (t + bs - 1) / bs = t / bs + 1 := by
  have hd := Nat.div_add_mod t bs
  have hr : t % bs < bs := Nat.mod_lt _ h
  have hx : bs * (t / bs + 1) = bs * (t / bs) + bs := by
    rw [Nat.mul_add, Nat.mul_one]
  rw [show t + bs - 1 = bs * (t / bs + 1) + (t % bs - 1) from by omega,
    Nat.mul_add_div h, Nat.div_eq_of_lt (show t % bs - 1 < bs by omega),
    Nat.add_zero]

theorem ceil_mul_ge (total bs : Nat) (h : 0 < bs) :
    total ≤ bs * ((total + bs - 1) / bs) := by
  have hd := Nat.div_add_mod (total + bs - 1) bs
  have hr : (total + bs - 1) % bs < bs := Nat.mod_lt _ h
  omega

/-! ### The loop indices `range(0, total_rows, batch_size)` -/

theorem chunkStarts_eq (total bs : Nat) (h : 0 < bs) :
    chunkStarts total bs
      = (List.range ((total + bs - 1) / bs)).map (fun j => j * bs) := by
  have hbs : ¬ bs = 0 := by omega
  induction total with
  | zero =>
      simp [chunkStarts, hbs, Nat.div_eq_of_lt (show bs - 1 < bs by omega)]
  | succ t ih =>
      have ih' : (List.range t).filter (fun i => i % bs = 0)
          = (List.range ((t + bs - 1) / bs)).map (fun j => j * bs) := by
        simpa [chunkStarts, hbs] using ih
      have h1 : (t + 1 + bs - 1) / bs = t / bs + 1 := by
        rw [show t + 1 + bs - 1 = t + bs from by omega, Nat.add_div_right _ h]
      rw [chunkStarts, if_neg hbs, List.range_succ, List.filter_append, ih',
        h1]
      by_cases hm : t % bs = 0
      · rw [cld_of_mod_eq t bs h hm, List.range_succ, List.map_append]
        simp [hm, Nat.div_mul_cancel (Nat.dvd_of_mod_eq_zero hm)]
      · rw [cld_of_mod_ne t bs h hm]
        simp [hm]

/-! ### Chunk slices partition the data rows, chunk ranges partition the
destination rows -/

theorem join_take_chunks {α : Type} (bs : Nat) (h : 0 < bs) :
    ∀ (k : Nat) (rows : List α), rows.length ≤ k * bs →
      ((List.range k).map (fun j => (rows.drop (j * bs)).take bs)).flatten
        = rows := by
  intro k
  induction k with
  | zero =>
      intro rows hlen
      have h0 : rows = [] := by
        have : rows.length = 0 := by simpa using hlen
        exact List.eq_nil_of_length_eq_zero this
      subst h0; simp
  | succ k ih =>
      intro rows hlen
      rw [List.range_succ_eq_map, List.map_cons, List.map_map]
      have he : ((List.range k).map
            ((fun j => (rows.drop (j * bs)).take bs) ∘ Nat.succ))
          = (List.range k).map
            (fun j => ((rows.drop bs).drop (j * bs)).take bs) := by
        refine List.map_congr_left (fun j _ => ?_)
        simp only [Function.comp, List.drop_drop]
        rw [show bs + j * bs = Nat.succ j * bs from by
          rw [Nat.succ_mul]; omega]
      rw [he, List.flatten_cons, Nat.zero_mul, List.drop_zero,
        ih (rows.drop bs) (by simp [Nat.succ_mul] at hlen ⊢; omega),
        List.take_append_drop]

theorem join_range'_chunks (bs : Nat) (hbs : 0 < bs) :
    ∀ (k s total : Nat), total ≤ k * bs →
      ((List.range k).map
          (fun j =>
            List.range' (s + j * bs) (min bs (total - j * bs)))).flatten
        = List.range' s total := by
  intro k
  induction k with
  | zero =>
      intro s total hlen
      simp at hlen
      simp [hlen]
  | succ k ih =>
      intro s total hlen
      rw [List.range_succ_eq_map, List.map_cons, List.map_map]
      have he : ((List.range k).map
            ((fun j => List.range' (s + j * bs) (min bs (total - j * bs)))
              ∘ Nat.succ))
          = (List.range k).map
            (fun j => List.range' ((s + bs) + j * bs)
              (min bs ((total - bs) - j * bs))) := by
        refine List.map_congr_left (fun j _ => ?_)
        simp only [Function.comp]
        rw [show s + Nat.succ j * bs = s + bs + j * bs from by
            rw [Nat.succ_mul]; omega,
          show total - Nat.succ j * bs = total - bs - j * bs from by
            rw [Nat.succ_mul]; omega]
      rw [he, List.flatten_cons, Nat.zero_mul, Nat.add_zero, Nat.sub_zero,
        ih (s + bs) (total - bs) (by simp [Nat.succ_mul] at hlen; omega)]
      by_cases hc : bs ≤ total
      · rw [Nat.min_eq_left hc, List.range'_append_1,
          show total - bs + bs = total from by omega]
      · rw [Nat.min_eq_right (by omega),
          show total - bs = 0 from by omega]
        simp

theorem ceil_mul_ge' (total bs : Nat) (h : 0 < bs) :
    total ≤ ((total + bs - 1) / bs) * bs := by
  rw [Nat.mul_comm]
  exact ceil_mul_ge total bs h

theorem mul_lt_of_lt_ceil (j total bs : Nat) (h : 0 < bs)
    (hj : j < (total + bs - 1) / bs) : j * bs < total := by
  have h1 : (j + 1) * bs ≤ total + bs - 1 :=
    (Nat.le_div_iff_mul_le h).mp hj
  rw [Nat.succ_mul] at h1
  omega

/-! ### Facts about the chunk loop iterations `chunkDescs` -/

theorem chunkDescs_length {α : Type} (rows : List (List α)) (bs : Nat)
    (hbs : 0 < bs) :
    (chunkDescs rows bs).length = (rows.length + bs - 1) / bs := by
  unfold chunkDescs
  rw [chunkStarts_eq _ _ hbs]
  simp

theorem chunkDescs_join_values {α : Type} (rows : List (List α)) (bs : Nat)
    (hbs : 0 < bs) :
    ((chunkDescs rows bs).map (fun d => d.2.2)).flatten = rows := by
  unfold chunkDescs
  rw [chunkStarts_eq _ _ hbs, List.map_map, List.map_map]
  exact join_take_chunks bs hbs _ rows (ceil_mul_ge' _ _ hbs)

theorem chunkDescs_mem_len_le {α : Type} (rows : List (List α)) (bs : Nat)
    (d : Nat × Nat × List (List α)) (hd : d ∈ chunkDescs rows bs) :
    d.2.2.length ≤ bs := by
  unfold chunkDescs at hd
  obtain ⟨i, _, rfl⟩ := List.mem_map.mp hd
  simpa using List.length_take_le bs _

theorem chunkDescs_mem_start {α : Type} (rows : List (List α)) (bs : Nat)
    (d : Nat × Nat × List (List α)) (hd : d ∈ chunkDescs rows bs) :
    2 ≤ d.1 := by
  unfold chunkDescs at hd
  obtain ⟨i, _, rfl⟩ := List.mem_map.mp hd
  exact Nat.le_add_left 2 i

theorem chunkDescs_cover {α : Type} (rows : List (List α)) (bs : Nat)
    (hbs : 0 < bs) :
    ((chunkDescs rows bs).map
        (fun d => List.range' d.1 (d.2.1 + 1 - d.1))).flatten
      = List.range' 2 rows.length := by
  unfold chunkDescs
  rw [chunkStarts_eq _ _ hbs, List.map_map, List.map_map]
  rw [List.map_congr_left (g := fun j =>
    List.range' (2 + j * bs) (min bs (rows.length - j * bs))) ?helper]
  · exact join_range'_chunks bs hbs _ 2 rows.length (ceil_mul_ge' _ _ hbs)
  case helper =>
    intro j hj
    have hjk : j * bs < rows.length :=
      mul_lt_of_lt_ceil j rows.length bs hbs (List.mem_range.mp hj)
    simp only [Function.comp]
    have hlen : ((rows.drop (j * bs)).take bs).length
        = min bs (rows.length - j * bs) := by
      simp
    rw [hlen]
    have hmin : min bs (rows.length - j * bs) ≥ 1 := by omega
    have hend : min (j * bs + 2 + min bs (rows.length - j * bs) - 1)
        (rows.length + 1)
        = j * bs + min bs (rows.length - j * bs) + 1 := by omega
    rw [hend, show j * bs + min bs (rows.length - j * bs) + 1 + 1
        - (j * bs + 2) = min bs (rows.length - j * bs) from by omega,
      Nat.add_comm (j * bs) 2]

/-! ### Facts about the single phases -/

theorem ensureCapacity_rows {α : Type} (wk : SheetState α) (a b : Nat) :
    (ensureCapacity wk a b).1.rows = max a wk.rows := by
  unfold ensureCapacity
  split
  · simp [applyResize]
  · next h =>
      simp only [not_or, not_lt] at h
      simp
      omega

theorem ensureCapacity_cols {α : Type} (wk : SheetState α) (a b : Nat) :
    (ensureCapacity wk a b).1.cols = max b wk.cols := by
  unfold ensureCapacity
  split
  · simp [applyResize]
  · next h =>
      simp only [not_or, not_lt] at h
      simp
      omega

theorem ensureCapacity_snd {α : Type} (wk : SheetState α) (a b : Nat) :
    (ensureCapacity wk a b).2
      = if a > wk.rows ∨ b > wk.cols
        then [Ev.resizeSheet (max a wk.rows) (max b wk.cols)] else [] := by
  unfold ensureCapacity
  split <;> rfl

theorem chunkLoop_rows {α : Type} (c : Nat)
    (ds : List (Nat × Nat × List (List α))) (st : SheetState α) :
    (chunkLoop c ds st).1.rows = st.rows := by
  induction ds generalizing st with
  | nil => rfl
  | cons d rest ih => simp [chunkLoop, ih]

theorem chunkLoop_cols {α : Type} (c : Nat)
    (ds : List (Nat × Nat × List (List α))) (st : SheetState α) :
    (chunkLoop c ds st).1.cols = st.cols := by
  induction ds generalizing st with
  | nil => rfl
  | cons d rest ih => simp [chunkLoop, ih]

theorem chunkLoop_grid {α : Type} (c : Nat)
    (ds : List (Nat × Nat × List (List α))) (st : SheetState α) :
    (chunkLoop c ds st).1.grid
      = ds.foldl (fun g d => overwriteRows g (d.1 - 1) d.2.2) st.grid := by
  induction ds generalizing st with
  | nil => rfl
  | cons d rest ih => simp [chunkLoop, ih]

theorem chunkLoop_filterMap_upd {α : Type} (c : Nat)
    (ds : List (Nat × Nat × List (List α))) (st : SheetState α) :
    ((chunkLoop c ds st).2).filterMap updOf
      = ds.map (fun d => (rangeLabel d.1 d.2.1 c, d.2.2)) := by
  induction ds generalizing st with
  | nil => rfl
  | cons d rest ih => simp [chunkLoop, ih, updOf]

theorem chunkLoop_filterMap_setDF {α : Type} (c : Nat)
    (ds : List (Nat × Nat × List (List α))) (st : SheetState α) :
    ((chunkLoop c ds st).2).filterMap setDFOf = [] := by
  induction ds generalizing st with
  | nil => rfl
  | cons d rest ih => simp [chunkLoop, ih, setDFOf, updOf]

theorem chunkLoop_filter_resize {α : Type} (c : Nat)
    (ds : List (Nat × Nat × List (List α))) (st : SheetState α) :
    ((chunkLoop c ds st).2).filter isResizeEv = [] := by
  induction ds generalizing st with
  | nil => rfl
  | cons d rest ih => simp [chunkLoop, ih, isResizeEv]

theorem overwriteRows_append {α : Type} (g vs : List (List α)) :
    overwriteRows g g.length vs = g ++ vs := by
  unfold overwriteRows
  rw [List.take_length, Nat.sub_self, List.replicate_zero,
    List.drop_eq_nil_of_le (Nat.le_add_right _ _)]
  simp

theorem chunkFold_grid {α : Type} (rows : List (List α)) (header : List α)
    (bs : Nat) (hbs : 0 < bs) :
    (chunkDescs rows bs).foldl
        (fun g d => overwriteRows g (d.1 - 1) d.2.2) [header]
      = header :: rows := by
  unfold chunkDescs
  rw [chunkStarts_eq _ _ hbs, List.map_map, List.foldl_map]
  have key : ∀ j, j ≤ (rows.length + bs - 1) / bs →
      (List.range j).foldl
        (fun g jj => overwriteRows g (jj * bs + 1)
          ((rows.drop (jj * bs)).take bs)) [header]
      = header :: rows.take (j * bs) := by
    intro j
    induction j with
    | zero => intro _; simp
    | succ j ih =>
        intro hj
        rw [List.range_succ, List.foldl_append, ih (by omega),
          List.foldl_cons, List.foldl_nil]
        have hjb : j * bs < rows.length :=
          mul_lt_of_lt_ceil j rows.length bs hbs (by omega)
        have hglen : j * bs + 1 = (header :: rows.take (j * bs)).length := by
          simp
          omega
        rw [hglen, overwriteRows_append, List.cons_append,
          show (j + 1) * bs = j * bs + bs from by rw [Nat.succ_mul],
          List.take_add]
  have hfin := key ((rows.length + bs - 1) / bs) (Nat.le_refl _)
  rw [List.take_of_length_le (ceil_mul_ge' _ _ hbs)] at hfin
  exact hfin

theorem writePhase_rows {α : Type} (df : DF α) (wk : SheetState α)
    (bs : Nat) : (writePhase df wk bs).1.rows = wk.rows := by
  unfold writePhase
  split
  · rfl
  · simp [chunkLoop_rows]

theorem writePhase_cols {α : Type} (df : DF α) (wk : SheetState α)
    (bs : Nat) : (writePhase df wk bs).1.cols = wk.cols := by
  unfold writePhase
  split
  · rfl
  · simp [chunkLoop_cols]

theorem writePhase_grid {α : Type} (df : DF α) (wk : SheetState α)
    (bs : Nat) (hbs : 0 < bs) (hg : wk.grid = []) :
    (writePhase df wk bs).1.grid = df.header :: df.rows := by
  unfold writePhase
  split
  · simp [overwriteRows, hg]
  · simp only [chunkLoop_grid]
    have hinit : overwriteRows wk.grid 0 [df.header] = [df.header] := by
      simp [overwriteRows, hg]
    rw [hinit]
    exact chunkFold_grid df.rows df.header bs hbs

theorem writePhase_filterMap_upd {α : Type} (df : DF α)
    (wk : SheetState α) (bs : Nat) :
    ((writePhase df wk bs).2).filterMap updOf
      = if df.rows.length ≤ bs then []
        else (chunkDescs df.rows bs).map
          (fun d => (rangeLabel d.1 d.2.1 df.header.length, d.2.2)) := by
  unfold writePhase
  split <;> rename_i h <;> simp [updOf, chunkLoop_filterMap_upd, h]

theorem writePhase_filterMap_setDF {α : Type} (df : DF α)
    (wk : SheetState α) (bs : Nat) :
    ((writePhase df wk bs).2).filterMap setDFOf
      = if df.rows.length ≤ bs then [("A1", df.header :: df.rows)]
        else [("A1", [df.header])] := by
  unfold writePhase
  split <;> rename_i h <;>
    simp [setDFOf, chunkLoop_filterMap_setDF, h]

theorem writePhase_filter_resize {α : Type} (df : DF α)
    (wk : SheetState α) (bs : Nat) :
    ((writePhase df wk bs).2).filter isResizeEv = [] := by
  unfold writePhase
  split <;> simp [isResizeEv, chunkLoop_filter_resize]

theorem trimPhase_rows {α : Type} (wk : SheetState α) (dc : Nat)
    (du : Bool) : (trimPhase wk dc du).1.rows = wk.rows := by
  unfold trimPhase
  cases du
  · rfl
  · simp only [if_true]
    split
    · simp [applyResize]
    · rfl

theorem trimPhase_cols {α : Type} (wk : SheetState α) (dc : Nat)
    (du : Bool) :
    (trimPhase wk dc du).1.cols
      = if du = true ∧ dc < wk.cols then dc else wk.cols := by
  unfold trimPhase
  cases du
  · simp
  · simp only [if_true]
    split <;> rename_i h <;> simp [applyResize, h]

theorem trimPhase_grid {α : Type} (wk : SheetState α) (dc : Nat)
    (du : Bool) :
    (trimPhase wk dc du).1.grid
      = if du = true ∧ dc < wk.cols
        then (wk.grid.take wk.rows).map (fun row => row.take dc)
        else wk.grid := by
  unfold trimPhase
  cases du
  · simp
  · simp only [if_true]
    split <;> rename_i h <;> simp [applyResize, h]

theorem trimPhase_snd {α : Type} (wk : SheetState α) (dc : Nat)
    (du : Bool) :
    (trimPhase wk dc du).2
      = if du = true ∧ dc < wk.cols then [Ev.resizeSheet wk.rows dc]
        else [] := by
  unfold trimPhase
  cases du
  · simp
  · simp only [if_true]
    split <;> rename_i h <;> simp [h]

theorem filterMap_upd_ensure {α : Type} (wk : SheetState α) (a b : Nat) :
    ((ensureCapacity wk a b).2).filterMap updOf = [] := by
  rw [ensureCapacity_snd]
  split <;> simp [updOf]

theorem filterMap_setDF_ensure {α : Type} (wk : SheetState α) (a b : Nat) :
    ((ensureCapacity wk a b).2).filterMap setDFOf = [] := by
  rw [ensureCapacity_snd]
  split <;> simp [setDFOf]

theorem filter_resize_ensure {α : Type} (wk : SheetState α) (a b : Nat) :
    ((ensureCapacity wk a b).2).filter isResizeEv
      = (ensureCapacity wk a b).2 := by
  rw [ensureCapacity_snd]
  split <;> simp [isResizeEv]

theorem filterMap_upd_trim {α : Type} (wk : SheetState α) (dc : Nat)
    (du : Bool) : ((trimPhase wk dc du).2).filterMap updOf = [] := by
  rw [trimPhase_snd]
  split <;> simp [updOf]

theorem filterMap_setDF_trim {α : Type} (wk : SheetState α) (dc : Nat)
    (du : Bool) : ((trimPhase wk dc du).2).filterMap setDFOf = [] := by
  rw [trimPhase_snd]
  split <;> simp [setDFOf]

theorem filter_resize_trim {α : Type} (wk : SheetState α) (dc : Nat)
    (du : Bool) :
    ((trimPhase wk dc du).2).filter isResizeEv = (trimPhase wk dc du).2 := by
  rw [trimPhase_snd]
  split <;> simp [isResizeEv]

/-! ### Facts about a full `uploadCore` run -/

theorem uploadCore_fst {α : Type} (df : DF α) (wk : SheetState α)
    (bs : Nat) (du : Bool) : (uploadCore df wk bs du).1 = true := rfl

theorem uploadCore_rows {α : Type} (df : DF α) (wk : SheetState α)
    (bs : Nat) (du : Bool) :
    (uploadCore df wk bs du).2.1.rows = max (df.rows.length + 1) wk.rows := by
  unfold uploadCore
  simp [trimPhase_rows, writePhase_rows, ensureCapacity_rows]

theorem uploadCore_cols {α : Type} (df : DF α) (wk : SheetState α)
    (bs : Nat) (du : Bool) :
    (uploadCore df wk bs du).2.1.cols
      = if du = true then df.header.length
        else max df.header.length wk.cols := by
  unfold uploadCore
  simp only [trimPhase_cols, writePhase_cols, ensureCapacity_cols]
  cases du
  · simp
  · simp only [if_true, true_and]
    split <;> rename_i h <;> simp <;> omega

theorem uploadCore_grid {α : Type} (df : DF α) (wk : SheetState α)
    (bs : Nat) (du : Bool) (hbs : 0 < bs)
    (hrect : ∀ r ∈ df.rows, r.length = df.header.length) :
    (uploadCore df wk bs du).2.1.grid = df.header :: df.rows := by
  unfold uploadCore
  simp only [trimPhase_grid]
  rw [writePhase_grid _ _ _ hbs rfl, writePhase_rows, writePhase_cols]
  split
  · rw [List.take_of_length_le]
    · refine List.map_congr_left ?_ |>.trans (List.map_id _)
      intro r hr
      rcases List.mem_cons.mp hr with h1 | h1
      · subst h1; exact List.take_of_length_le (Nat.le_refl _)
      · exact List.take_of_length_le (by rw [hrect r h1])
    · simp only [ensureCapacity_rows, List.length_cons]
      exact le_max_of_le_left (by simp)
  · rfl

theorem uploadCore_filterMap_upd {α : Type} (df : DF α)
    (wk : SheetState α) (bs : Nat) (du : Bool) :
    ((uploadCore df wk bs du).2.2).filterMap updOf
      = if df.rows.length ≤ bs then []
        else (chunkDescs df.rows bs).map
          (fun d => (rangeLabel d.1 d.2.1 df.header.length, d.2.2)) := by
  unfold uploadCore
  simp only [List.filterMap_cons, List.filterMap_append,
    filterMap_upd_ensure, filterMap_upd_trim, writePhase_filterMap_upd,
    updOf]
  simp

theorem uploadCore_filterMap_setDF {α : Type} (df : DF α)
    (wk : SheetState α) (bs : Nat) (du : Bool) :
    ((uploadCore df wk bs du).2.2).filterMap setDFOf
      = if df.rows.length ≤ bs then [("A1", df.header :: df.rows)]
        else [("A1", [df.header])] := by
  unfold uploadCore
  simp only [List.filterMap_cons, List.filterMap_append,
    filterMap_setDF_ensure, filterMap_setDF_trim,
    writePhase_filterMap_setDF, setDFOf]
  simp

theorem uploadCore_filter_resize {α : Type} (df : DF α)
    (wk : SheetState α) (bs : Nat) (du : Bool) :
    ((uploadCore df wk bs du).2.2).filter isResizeEv
      = (if df.rows.length + 1 > wk.rows ∨ df.header.length > wk.cols
          then [Ev.resizeSheet (max (df.rows.length + 1) wk.rows)
                  (max df.header.length wk.cols)]
          else [])
        ++ (if du = true ∧ df.header.length < wk.cols
            then [Ev.resizeSheet (max (df.rows.length + 1) wk.rows)
                    df.header.length]
            else []) := by
  unfold uploadCore
  simp only [List.filter_cons, List.filter_append, filter_resize_ensure,
    filter_resize_trim, writePhase_filter_resize, trimPhase_snd,
    writePhase_rows, writePhase_cols, ensureCapacity_rows,
    ensureCapacity_cols, ensureCapacity_snd, isResizeEv]
  simp
  split_ifs <;> simp [isResizeEv]

/-! ### Facts about the failure-injected run -/

theorem runEvents_error {α : Type} (failOn : Ev α → Bool)
    (l : List (Ev α)) (e : Ev α)
    (h : runEvents failOn l = Except.error e) :
    failOn e = true ∧ e ∈ l := by
  induction l with
  | nil => exact absurd h (by simp [runEvents])
  | cons x rest ih =>
      unfold runEvents at h
      by_cases hx : failOn x
      · rw [if_pos hx] at h
        obtain rfl : x = e := by
          simpa using congrArg (fun r => match r with
            | Except.error a => a
            | Except.ok _ => x) h
        exact ⟨hx, List.mem_cons_self _ _⟩
      · rw [if_neg hx] at h
        obtain ⟨h1, h2⟩ := ih h
        exact ⟨h1, List.mem_cons_of_mem _ h2⟩

/-! ### The claims -/

/-- C1: for every dataset with `row_count > batch_size` (`batch_size`
positive), the sync performs exactly `ceil(row_count / batch_size)` chunk
write calls (the `update_values` events of the trace, which are exactly
the rendered loop iterations `chunkDescs`); the chunks partition the data
rows, in original order, into contiguous slices of at most `batch_size`
rows; and the chunks' destination row ranges, concatenated in emission
order, are exactly rows `2 .. row_count + 1` (`List.range' 2 row_count`)
with no gaps and no overlaps. -/
theorem C1_chunk_partition {α : Type} (df : DF α) (lp : Option String)
    (fe : String → Bool) (rc : String → DF α) (wk : SheetState α)
    (bs : Nat) (du : Bool) (hbs : 0 < bs) (hgt : bs < df.rows.length) :
    ((upload_to_gsheet (some df) lp fe rc wk bs du).2.2).filterMap updOf
        = (chunkDescs df.rows bs).map
            (fun d => (rangeLabel d.1 d.2.1 df.header.length, d.2.2)) ∧
    (((upload_to_gsheet (some df) lp fe rc wk bs du).2.2).filterMap
        updOf).length = (df.rows.length + bs - 1) / bs ∧
    ((chunkDescs df.rows bs).map (fun d => d.2.2)).flatten = df.rows ∧
    (∀ d ∈ chunkDescs df.rows bs, d.2.2.length ≤ bs) ∧
    ((chunkDescs df.rows bs).map
        (fun d => List.range' d.1 (d.2.1 + 1 - d.1))).flatten
      = List.range' 2 df.rows.length := by
  have hn : ¬ df.rows.length ≤ bs := by omega
  have h1 : ((upload_to_gsheet (some df) lp fe rc wk bs du).2.2).filterMap
      updOf = (chunkDescs df.rows bs).map
        (fun d => (rangeLabel d.1 d.2.1 df.header.length, d.2.2)) := by
    show ((uploadCore df wk bs du).2.2).filterMap updOf = _
    rw [uploadCore_filterMap_upd, if_neg hn]
  refine ⟨h1, ?_, chunkDescs_join_values _ _ hbs,
    fun d hd => chunkDescs_mem_len_le _ _ d hd, chunkDescs_cover _ _ hbs⟩
  rw [h1, List.length_map, chunkDescs_length _ _ hbs]

theorem C1_chunk_partition_witness :
    0 < 2 ∧ 2 < dfW.rows.length ∧
    (((upload_to_gsheet (some dfW) none feW rcW wkW 2 false).2.2).filterMap
          updOf
        = (chunkDescs dfW.rows 2).map
            (fun d => (rangeLabel d.1 d.2.1 dfW.header.length, d.2.2)) ∧
      (((upload_to_gsheet (some dfW) none feW rcW wkW 2
          false).2.2).filterMap updOf).length
        = (dfW.rows.length + 2 - 1) / 2 ∧
      ((chunkDescs dfW.rows 2).map (fun d => d.2.2)).flatten = dfW.rows ∧
      (∀ d ∈ chunkDescs dfW.rows 2, d.2.2.length ≤ 2) ∧
      ((chunkDescs dfW.rows 2).map
          (fun d => List.range' d.1 (d.2.1 + 1 - d.1))).flatten
        = List.range' 2 dfW.rows.length) :=
  ⟨by decide, by decide,
    C1_chunk_partition dfW none feW rcW wkW 2 false (by decide) (by decide)⟩

/-- C2: for every dataset with `row_count <= batch_size` the sync writes
header and data in exactly one `set_dataframe` call starting at cell A1,
and the chunk loop does not run (no `update_values` event); the boundary
case `row_count == batch_size` satisfies the hypothesis, so it takes the
single-shot path. -/
theorem C2_single_shot {α : Type} (df : DF α) (lp : Option String)
    (fe : String → Bool) (rc : String → DF α) (wk : SheetState α)
    (bs : Nat) (du : Bool) (hle : df.rows.length ≤ bs) :
    ((upload_to_gsheet (some df) lp fe rc wk bs du).2.2).filterMap setDFOf
        = [("A1", df.header :: df.rows)] ∧
    ((upload_to_gsheet (some df) lp fe rc wk bs du).2.2).filterMap updOf
      = [] := by
  constructor
  · show ((uploadCore df wk bs du).2.2).filterMap setDFOf = _
    rw [uploadCore_filterMap_setDF, if_pos hle]
  · show ((uploadCore df wk bs du).2.2).filterMap updOf = _
    rw [uploadCore_filterMap_upd, if_pos hle]

theorem C2_single_shot_witness :
    dfW.rows.length ≤ 3 ∧
    (((upload_to_gsheet (some dfW) none feW rcW wkW 3 false).2.2).filterMap
          setDFOf = [("A1", dfW.header :: dfW.rows)] ∧
      ((upload_to_gsheet (some dfW) none feW rcW wkW 3
          false).2.2).filterMap updOf = []) :=
  ⟨by decide, C2_single_shot dfW none feW rcW wkW 3 false (by decide)⟩

/-- C10: when both an in-memory dataset and a local source path are
supplied, the dataset wins: the run is identical to a run without the
path, for any file-existence oracle and any CSV reader — the file is
never consulted. -/
theorem C10_df_precedence {α : Type} (df : DF α) (p : String)
    (fe rc2fe : String → Bool) (rc : String → DF α) (rc2 : String → DF α)
    (wk : SheetState α) (bs : Nat) (du : Bool) :
    upload_to_gsheet (some df) (some p) fe rc wk bs du
      = upload_to_gsheet (some df) none rc2fe rc2 wk bs du := rfl

theorem C10_df_precedence_witness :
    upload_to_gsheet (some dfW) (some "data.csv") feW rcW wkW 2 false
      = upload_to_gsheet (some dfW) none (fun _ => true)
          (fun _ => ⟨[], []⟩) wkW 2 false :=
  C10_df_precedence dfW "data.csv" feW (fun _ => true) rcW
    (fun _ => ⟨[], []⟩) wkW 2 false

/-- C5: with neither dataset nor path the sync returns `false` with an
empty remote trace; with a path that does not exist it returns `false`
with an empty remote trace; with a dataset (or an existing path) it
returns `true` (in this failure-free model every write completes). -/
theorem C5_validation_and_result {α : Type} (df : DF α)
    (lp : Option String) (p : String) (fe : String → Bool)
    (rc : String → DF α) (wk : SheetState α) (bs : Nat) (du : Bool) :
    upload_to_gsheet (α := α) none none fe rc wk bs du = (false, wk, []) ∧
    (fe p = false →
      upload_to_gsheet (α := α) none (some p) fe rc wk bs du
        = (false, wk, [])) ∧
    (upload_to_gsheet (some df) lp fe rc wk bs du).1 = true ∧
    (fe p = true →
      (upload_to_gsheet (α := α) none (some p) fe rc wk bs du).1
        = true) := by
  refine ⟨rfl, ?_, rfl, ?_⟩
  · intro h
    simp [upload_to_gsheet, h]
  · intro h
    simp [upload_to_gsheet, h, uploadCore_fst]

/-- C3, counterexample: the claim asserts every chunked write's label
uses a base-26 letter derived from the column count; for a 27-column
dataset the code emits `chr(65 + 27 - 1) = '['`, which is not a letter
(the base-26 label for offset 26 would be a two-letter column name), so
the claim fails at this input. -/
theorem C3_range_label_counterexample :
    (((upload_to_gsheet (some df27) none feW rcW wkW 2
          false).2.2).filterMap updOf).map Prod.fst
        = ["A2:[3", "A4:[4"] ∧
      colChar df27.header.length = '[' ∧
      ¬ isBase26Letter (colChar df27.header.length) := by
  refine ⟨by decide, by decide, by decide⟩

/-- C3, amended: for every chunked write of a dataset with between 1 and
26 columns, the emitted label is
`"A" ++ start_row ++ ":" ++ col_letter ++ end_row` where the column
letter `chr(65 + col_count - 1)` is the base-26 letter (A = offset 0) of
the 0-indexed column count; in particular 45000 rows x 2 columns with
`batch_size = 20000` yields exactly the ranges `A2:B20001`,
`A20002:B40001`, `A40002:B45001`.  (Without the 1..26 restriction the
claim is false, see the counterexample.) -/
theorem C3_amended_range_labels {α : Type} (df : DF α) (lp : Option String)
    (fe : String → Bool) (rc : String → DF α) (wk : SheetState α)
    (bs : Nat) (du : Bool) (hbs : 0 < bs) (hgt : bs < df.rows.length)
    (hc1 : 1 ≤ df.header.length) (hc26 : df.header.length ≤ 26) :
    ((upload_to_gsheet (some df) lp fe rc wk bs du).2.2).filterMap updOf
        = (chunkDescs df.rows bs).map
            (fun d => (rangeLabel d.1 d.2.1 df.header.length, d.2.2)) ∧
    isBase26Letter (colChar df.header.length) ∧
    (df.rows.length = 45000 → df.header.length = 2 → bs = 20000 →
      (((upload_to_gsheet (some df) lp fe rc wk bs du).2.2).filterMap
          updOf).map Prod.fst
        = ["A2:B20001", "A20002:B40001", "A40002:B45001"]) := by
  have hn : ¬ df.rows.length ≤ bs := by omega
  have h1 : ((upload_to_gsheet (some df) lp fe rc wk bs du).2.2).filterMap
      updOf = (chunkDescs df.rows bs).map
        (fun d => (rangeLabel d.1 d.2.1 df.header.length, d.2.2)) := by
    show ((uploadCore df wk bs du).2.2).filterMap updOf = _
    rw [uploadCore_filterMap_upd, if_neg hn]
  refine ⟨h1, ?_, ?_⟩
  · have key : ∀ n, 1 ≤ n → n ≤ 26 → isBase26Letter (colChar n) := by
      intro n hn1 hn2
      interval_cases n <;> decide
    exact key _ hc1 hc26
  · intro hr45 hc2 hb20
    rw [h1, List.map_map]
    unfold chunkDescs
    rw [List.map_map, hr45, hc2, hb20,
      chunkStarts_eq 45000 20000 (by norm_num),
      show (45000 + 20000 - 1) / 20000 = 3 from by norm_num,
      show List.range 3 = [0, 1, 2] from rfl]
    simp only [List.map_map, List.map_cons, List.map_nil, Function.comp]
    norm_num [List.length_take, List.length_drop, hr45]
    decide

theorem C3_amended_range_labels_witness :
    0 < 20000 ∧ 20000 < df45.rows.length ∧ 1 ≤ df45.header.length ∧
    df45.header.length ≤ 26 ∧
    (((upload_to_gsheet (some df45) none feW rcW wkW 20000
          false).2.2).filterMap updOf
        = (chunkDescs df45.rows 20000).map
            (fun d => (rangeLabel d.1 d.2.1 df45.header.length, d.2.2)) ∧
      isBase26Letter (colChar df45.header.length) ∧
      (df45.rows.length = 45000 → df45.header.length = 2 → 20000 = 20000 →
        (((upload_to_gsheet (some df45) none feW rcW wkW 20000
            false).2.2).filterMap updOf).map Prod.fst
          = ["A2:B20001", "A20002:B40001", "A40002:B45001"])) :=
  ⟨by norm_num, by norm_num [df45], by decide, by decide,
    C3_amended_range_labels df45 none feW rcW wkW 20000 false
      (by norm_num) (by norm_num [df45]) (by decide) (by decide)⟩

/-- C4: an exception of the remote handle (modelled by `failOn`) during
connect, resize, clear or write is not caught inside the controller: the
fallible run ends in that very exception, and only a call the handle
failed on can be the error; the `safe_execution` wrapper at the call
boundary, when disabled, propagates the exception unchanged and, when
enabled, catches it and returns `None` instead of raising. -/
theorem C4_error_propagation {α : Type} (failOn : Ev α → Bool)
    (dfArg : Option (DF α)) (lp : Option String) (fe : String → Bool)
    (rc : String → DF α) (wk : SheetState α) (bs : Nat) (du : Bool)
    (e : Ev α)
    (h : upload_to_gsheetF failOn dfArg lp fe rc wk bs du
      = Except.error e) :
    failOn e = true ∧
    safe_execution false
        (fun s => upload_to_gsheetF failOn dfArg lp fe rc s bs du) wk
      = Except.error e ∧
    safe_execution true
        (fun s => upload_to_gsheetF failOn dfArg lp fe rc s bs du) wk
      = Except.ok none := by
  refine ⟨?_, by simp [safe_execution, h, Except.map],
    by simp [safe_execution, h]⟩
  cases dfArg with
  | some df =>
      simp only [upload_to_gsheetF] at h
      cases hr : runEvents failOn (uploadCore df wk bs du).2.2 with
      | error e2 =>
          rw [hr] at h
          simp only [Except.error.injEq] at h
          subst h
          exact (runEvents_error _ _ _ hr).1
      | ok u => rw [hr] at h; simp at h
  | none =>
      cases lp with
      | none => simp [upload_to_gsheetF] at h
      | some p =>
          simp only [upload_to_gsheetF] at h
          by_cases hfe : fe p
          · rw [if_pos hfe] at h
            cases hr : runEvents failOn (uploadCore (rc p) wk bs du).2.2
              with
            | error e2 =>
                rw [hr] at h
                simp only [Except.error.injEq] at h
                subst h
                exact (runEvents_error _ _ _ hr).1
            | ok u => rw [hr] at h; simp at h
          · rw [if_neg hfe] at h
            simp at h

theorem C4_error_propagation_witness :
    upload_to_gsheetF failOnClear (some dfW) none feW rcW wkW 2 false
        = Except.error Ev.clearSheet ∧
    (failOnClear Ev.clearSheet = true ∧
      safe_execution false
          (fun s =>
            upload_to_gsheetF failOnClear (some dfW) none feW rcW s 2
              false) wkW
        = Except.error Ev.clearSheet ∧
      safe_execution true
          (fun s =>
            upload_to_gsheetF failOnClear (some dfW) none feW rcW s 2
              false) wkW
        = Except.ok none) :=
  ⟨rfl, C4_error_propagation failOnClear (some dfW) none feW rcW wkW 2
    false Ev.clearSheet rfl⟩

theorem C5_validation_and_result_witness :
    (upload_to_gsheet (α := Bool) none none feW rcW wkW 2 false
        = (false, wkW, []) ∧
      (feW "a.csv" = false →
        upload_to_gsheet (α := Bool) none (some "a.csv") feW rcW wkW 2 false
          = (false, wkW, [])) ∧
      (upload_to_gsheet (some dfW) none feW rcW wkW 2 false).1 = true ∧
      (feW "a.csv" = true →
        (upload_to_gsheet (α := Bool) none (some "a.csv") feW rcW wkW 2
            false).1 = true)) ∧
    feW "a.csv" = false :=
  ⟨C5_validation_and_result dfW none "a.csv" feW rcW wkW 2 false, by decide⟩

/-- C6: the ensure-capacity step resizes to the dimension-wise maximum of
current and required extents (required = `(row_count + 1, col_count)`),
so neither extent ever decreases on this step; over a whole run the row
extent never decreases, the column extent never decreases unless
`drop_unused_columns` is set, and a column shrink can only be the
post-write trim down to exactly the dataset's column count, which
requires `drop_unused_columns = true` and a strictly larger capacity. -/
theorem C6_resize_never_shrinks {α : Type} (df : DF α) (lp : Option String)
    (fe : String → Bool) (rc : String → DF α) (wk : SheetState α)
    (bs : Nat) (du : Bool) :
    (ensureCapacity wk (df.rows.length + 1) df.header.length).1.rows
        = max (df.rows.length + 1) wk.rows ∧
    (ensureCapacity wk (df.rows.length + 1) df.header.length).1.cols
        = max df.header.length wk.cols ∧
    wk.rows
      ≤ (ensureCapacity wk (df.rows.length + 1) df.header.length).1.rows ∧
    wk.cols
      ≤ (ensureCapacity wk (df.rows.length + 1) df.header.length).1.cols ∧
    wk.rows ≤ (upload_to_gsheet (some df) lp fe rc wk bs du).2.1.rows ∧
    (du = false →
      wk.cols ≤ (upload_to_gsheet (some df) lp fe rc wk bs du).2.1.cols) ∧
    ((upload_to_gsheet (some df) lp fe rc wk bs du).2.1.cols < wk.cols →
      du = true ∧
      (upload_to_gsheet (some df) lp fe rc wk bs du).2.1.cols
        = df.header.length ∧
      df.header.length < wk.cols) := by
  have hrows : (upload_to_gsheet (some df) lp fe rc wk bs du).2.1.rows
      = max (df.rows.length + 1) wk.rows := uploadCore_rows df wk bs du
  have hcols : (upload_to_gsheet (some df) lp fe rc wk bs du).2.1.cols
      = if du = true then df.header.length
        else max df.header.length wk.cols := uploadCore_cols df wk bs du
  refine ⟨ensureCapacity_rows _ _ _, ensureCapacity_cols _ _ _, ?_, ?_,
    ?_, ?_, ?_⟩
  · rw [ensureCapacity_rows]; omega
  · rw [ensureCapacity_cols]; omega
  · rw [hrows]; omega
  · intro hdu
    rw [hcols, hdu]
    simp
  · intro hlt
    rw [hcols] at hlt
    by_cases hdu : du = true
    · rw [if_pos hdu] at hlt
      exact ⟨hdu, by rw [hcols, if_pos hdu], hlt⟩
    · rw [if_neg hdu] at hlt
      omega

theorem C6_resize_never_shrinks_witness :
    (ensureCapacity wkW (dfW.rows.length + 1) dfW.header.length).1.rows
        = max (dfW.rows.length + 1) wkW.rows ∧
    (ensureCapacity wkW (dfW.rows.length + 1) dfW.header.length).1.cols
        = max dfW.header.length wkW.cols ∧
    wkW.rows
      ≤ (ensureCapacity wkW (dfW.rows.length + 1)
          dfW.header.length).1.rows ∧
    wkW.cols
      ≤ (ensureCapacity wkW (dfW.rows.length + 1)
          dfW.header.length).1.cols ∧
    wkW.rows ≤ (upload_to_gsheet (some dfW) none feW rcW wkW 2
        true).2.1.rows ∧
    (true = false →
      wkW.cols ≤ (upload_to_gsheet (some dfW) none feW rcW wkW 2
          true).2.1.cols) ∧
    ((upload_to_gsheet (some dfW) none feW rcW wkW 2 true).2.1.cols
        < wkW.cols →
      true = true ∧
      (upload_to_gsheet (some dfW) none feW rcW wkW 2 true).2.1.cols
        = dfW.header.length ∧
      dfW.header.length < wkW.cols) :=
  C6_resize_never_shrinks dfW none feW rcW wkW 2 true

/-- C7: with `drop_unused_columns = true` and current capacity strictly
above the dataset's column count, the run ends with one extra resize
event shrinking the columns to exactly the column count, rows unchanged;
with capacity not above the column count no trim resize happens; with
`drop_unused_columns = false` no post-write resize happens at all (the
only resize events are the ensure-capacity ones). -/
theorem C7_trim_policy {α : Type} (df : DF α) (lp : Option String)
    (fe : String → Bool) (rc : String → DF α) (wk : SheetState α)
    (bs : Nat) (du : Bool) :
    ((du = true ∧ df.header.length < wk.cols) →
      ((upload_to_gsheet (some df) lp fe rc wk bs du).2.1.cols
          = df.header.length ∧
        (upload_to_gsheet (some df) lp fe rc wk bs du).2.1.rows
          = max (df.rows.length + 1) wk.rows ∧
        ((upload_to_gsheet (some df) lp fe rc wk bs du).2.2).filter
            isResizeEv
          = (if df.rows.length + 1 > wk.rows ∨ df.header.length > wk.cols
              then [Ev.resizeSheet (max (df.rows.length + 1) wk.rows)
                      (max df.header.length wk.cols)]
              else [])
            ++ [Ev.resizeSheet (max (df.rows.length + 1) wk.rows)
                  df.header.length])) ∧
    ((du = true ∧ wk.cols ≤ df.header.length) →
      (((upload_to_gsheet (some df) lp fe rc wk bs du).2.2).filter
            isResizeEv
          = (if df.rows.length + 1 > wk.rows ∨ df.header.length > wk.cols
              then [Ev.resizeSheet (max (df.rows.length + 1) wk.rows)
                      (max df.header.length wk.cols)]
              else []) ∧
        (upload_to_gsheet (some df) lp fe rc wk bs du).2.1.cols
          = df.header.length)) ∧
    (du = false →
      (((upload_to_gsheet (some df) lp fe rc wk bs du).2.2).filter
            isResizeEv
          = (if df.rows.length + 1 > wk.rows ∨ df.header.length > wk.cols
              then [Ev.resizeSheet (max (df.rows.length + 1) wk.rows)
                      (max df.header.length wk.cols)]
              else []) ∧
        (upload_to_gsheet (some df) lp fe rc wk bs du).2.1.cols
          = max df.header.length wk.cols ∧
        (upload_to_gsheet (some df) lp fe rc wk bs du).2.1.rows
          = max (df.rows.length + 1) wk.rows)) := by
  have hres : ((upload_to_gsheet (some df) lp fe rc wk bs du).2.2).filter
      isResizeEv
      = (if df.rows.length + 1 > wk.rows ∨ df.header.length > wk.cols
          then [Ev.resizeSheet (max (df.rows.length + 1) wk.rows)
                  (max df.header.length wk.cols)]
          else [])
        ++ (if du = true ∧ df.header.length < wk.cols
            then [Ev.resizeSheet (max (df.rows.length + 1) wk.rows)
                    df.header.length]
            else []) := uploadCore_filter_resize df wk bs du
  have hrows : (upload_to_gsheet (some df) lp fe rc wk bs du).2.1.rows
      = max (df.rows.length + 1) wk.rows := uploadCore_rows df wk bs du
  have hcols : (upload_to_gsheet (some df) lp fe rc wk bs du).2.1.cols
      = if du = true then df.header.length
        else max df.header.length wk.cols := uploadCore_cols df wk bs du
  refine ⟨?_, ?_, ?_⟩
  · intro hc
    refine ⟨by rw [hcols, if_pos hc.1], hrows, ?_⟩
    rw [hres, if_pos hc]
  · intro hc
    have hnot : ¬ (du = true ∧ df.header.length < wk.cols) := by omega
    constructor
    · rw [hres, if_neg hnot, List.append_nil]
    · rw [hcols, if_pos hc.1]
  · intro hdu
    have hnot : ¬ (du = true ∧ df.header.length < wk.cols) := by
      simp [hdu]
    refine ⟨by rw [hres, if_neg hnot, List.append_nil], ?_, hrows⟩
    rw [hcols, hdu]
    simp

theorem C7_trim_policy_witness :
    ((true = true ∧ dfW.header.length < 10) →
      ((upload_to_gsheet (some dfW) none feW rcW ⟨1, 10, []⟩ 2
            true).2.1.cols = dfW.header.length ∧
        (upload_to_gsheet (some dfW) none feW rcW ⟨1, 10, []⟩ 2
            true).2.1.rows = max (dfW.rows.length + 1) 1 ∧
        ((upload_to_gsheet (some dfW) none feW rcW ⟨1, 10, []⟩ 2
            true).2.2).filter isResizeEv
          = (if dfW.rows.length + 1 > 1 ∨ dfW.header.length > 10
              then [Ev.resizeSheet (max (dfW.rows.length + 1) 1)
                      (max dfW.header.length 10)]
              else [])
            ++ [Ev.resizeSheet (max (dfW.rows.length + 1) 1)
                  dfW.header.length])) ∧
    ((true = true ∧ (10 : Nat) ≤ dfW.header.length) →
      (((upload_to_gsheet (some dfW) none feW rcW ⟨1, 10, []⟩ 2
            true).2.2).filter isResizeEv
          = (if dfW.rows.length + 1 > 1 ∨ dfW.header.length > 10
              then [Ev.resizeSheet (max (dfW.rows.length + 1) 1)
                      (max dfW.header.length 10)]
              else [])
          ∧
        (upload_to_gsheet (some dfW) none feW rcW ⟨1, 10, []⟩ 2
            true).2.1.cols = dfW.header.length)) ∧
    (true = false →
      (((upload_to_gsheet (some dfW) none feW rcW ⟨1, 10, []⟩ 2
            true).2.2).filter isResizeEv
          = (if dfW.rows.length + 1 > 1 ∨ dfW.header.length > 10
              then [Ev.resizeSheet (max (dfW.rows.length + 1) 1)
                      (max dfW.header.length 10)]
              else []) ∧
        (upload_to_gsheet (some dfW) none feW rcW ⟨1, 10, []⟩ 2
            true).2.1.cols = max dfW.header.length 10 ∧
        (upload_to_gsheet (some dfW) none feW rcW ⟨1, 10, []⟩ 2
            true).2.1.rows = max (dfW.rows.length + 1) 1)) :=
  C7_trim_policy dfW none feW rcW ⟨1, 10, []⟩ 2 true

/-- C8: running the sync twice with the same dataset on the same handle
leaves the handle in the same final state (extents and content) as
running it once: the unconditional clear before writing makes repeated
syncs convergent.  (`hrect` states that the dataset is rectangular, as
every DataFrame is.) -/
theorem C8_idempotence {α : Type} (df : DF α) (lp : Option String)
    (fe : String → Bool) (rc : String → DF α) (wk : SheetState α)
    (bs : Nat) (du : Bool) (hbs : 0 < bs)
    (hrect : ∀ r ∈ df.rows, r.length = df.header.length) :
    (upload_to_gsheet (some df) lp fe rc
        (upload_to_gsheet (some df) lp fe rc wk bs du).2.1 bs du).2.1
      = (upload_to_gsheet (some df) lp fe rc wk bs du).2.1 := by
  simp only [upload_to_gsheet]
  apply SheetState.ext
  · rw [uploadCore_rows, uploadCore_rows]
    omega
  · rw [uploadCore_cols, uploadCore_cols]
    cases du
    · simp
    · simp
  · rw [uploadCore_grid df _ bs du hbs hrect,
      uploadCore_grid df wk bs du hbs hrect]

theorem C8_idempotence_witness :
    0 < 2 ∧ (∀ r ∈ dfW.rows, r.length = dfW.header.length) ∧
    (upload_to_gsheet (some dfW) none feW rcW
        (upload_to_gsheet (some dfW) none feW rcW wkW 2 true).2.1 2
        true).2.1
      = (upload_to_gsheet (some dfW) none feW rcW wkW 2 true).2.1 :=
  ⟨by decide, by decide,
    C8_idempotence dfW none feW rcW wkW 2 true (by decide) (by decide)⟩

/-- C9: on every run that reaches the write phase the header row is
written exactly once — there is exactly one `set_dataframe` event, it
starts at A1 and its first written row is the header — and every chunk
write is one of the loop iterations, targeting destination rows from
row 2 on, so no data chunk touches the header row. -/
theorem C9_header_once {α : Type} (df : DF α) (lp : Option String)
    (fe : String → Bool) (rc : String → DF α) (wk : SheetState α)
    (bs : Nat) (du : Bool) :
    ((((upload_to_gsheet (some df) lp fe rc wk bs du).2.2).filterMap
        setDFOf).length = 1) ∧
    (∀ x ∈ ((upload_to_gsheet (some df) lp fe rc wk bs du).2.2).filterMap
        setDFOf, x.1 = "A1" ∧ x.2.head? = some df.header) ∧
    (∀ x ∈ ((upload_to_gsheet (some df) lp fe rc wk bs du).2.2).filterMap
        updOf, ∃ d ∈ chunkDescs df.rows bs,
          x = (rangeLabel d.1 d.2.1 df.header.length, d.2.2) ∧
            2 ≤ d.1) := by
  simp only [upload_to_gsheet]
  rw [uploadCore_filterMap_setDF, uploadCore_filterMap_upd]
  refine ⟨?_, ?_, ?_⟩
  · split <;> rfl
  · split <;> intro x hx <;> rw [List.mem_singleton] at hx <;>
      subst hx <;> exact ⟨rfl, rfl⟩
  · split
    · intro x hx
      exact absurd hx (List.not_mem_nil x)
    · intro x hx
      obtain ⟨d, hd, rfl⟩ := List.mem_map.mp hx
      exact ⟨d, hd, rfl, chunkDescs_mem_start _ _ d hd⟩

theorem C9_header_once_witness :
    ((((upload_to_gsheet (some dfW) none feW rcW wkW 2
        false).2.2).filterMap setDFOf).length = 1) ∧
    (∀ x ∈ ((upload_to_gsheet (some dfW) none feW rcW wkW 2
        false).2.2).filterMap setDFOf,
      x.1 = "A1" ∧ x.2.head? = some dfW.header) ∧
    (∀ x ∈ ((upload_to_gsheet (some dfW) none feW rcW wkW 2
        false).2.2).filterMap updOf,
      ∃ d ∈ chunkDescs dfW.rows 2,
        x = (rangeLabel d.1 d.2.1 dfW.header.length, d.2.2) ∧ 2 ≤ d.1) :=
  C9_header_once dfW none feW rcW wkW 2 false

end Heisenberg
